import Mathlib

/-!
Shallow embedding of the core data pipeline of `montana_specimens_mapper.py`:
coordinate normalization (`dms_to_decimal`, `convert_coordinates`), taxon/year
filtering, boundary clipping, per-county aggregation and range-based color
classification (`process_county_data`), and the orchestration (`generate_map`).

Modelling conventions:
- Python strings are `List Char`; Python float values are `ℚ`, with the NaN
  sentinel modelled by `Option ℚ` (`none` = NaN).  Binary-float rounding is not
  modelled: arithmetic is exact.
- pandas cells that may be missing (NaN) are `Option` fields; a NaN cell fails
  every equality/ordering test, matching pandas semantics.
- Geometry is modelled extensionally: a polygon is its point-containment
  predicate `ℚ → ℚ → Bool` (the `within` test of shapely); coordinate-system
  reprojection (`to_crs`) is an external bijection applied uniformly to all
  points and polygons and is modelled as the identity.
- The `try/except` of `convert_coordinates` is modelled by an abstract flag
  `convFails` on the row: the except branch returns `Point(0, 0)`.
- `float(...)` parsing models sign / digits / decimal point / exponent;
  the `inf`/`nan` literals and underscore separators are not modelled.
-/

abbrev PyStr := List Char

def isDigitC (c : Char) : Bool := c.isDigit

/-- ASCII whitespace as treated by Python `str.strip` and the regex class `\s`. -/
def isPySpace (c : Char) : Bool :=
  c = ' ' || c = Char.ofNat 9 || c = Char.ofNat 10 ||
  c = Char.ofNat 11 || c = Char.ofNat 12 || c = Char.ofNat 13

/-- The regex character class `[°\s]` separating degrees from minutes. -/
def isDegSpace (c : Char) : Bool := c = '°' || isPySpace c

def apos : Char := Char.ofNat 39

def quoteChar : Char := Char.ofNat 34

def natOfDigits (l : PyStr) : ℕ := l.foldl (fun a c => 10 * a + (c.toNat - 48)) 0

/-- Python `str.strip()` (ASCII whitespace). -/
def pyStrip (l : PyStr) : PyStr :=
  ((l.dropWhile isPySpace).reverse.dropWhile isPySpace).reverse

/-- Python `str.replace` for a nonempty pattern: replace all non-overlapping
occurrences left to right.  The fuel argument is the input length. -/
def replaceCharsAux (pat rep : PyStr) : ℕ → PyStr → PyStr
  | _, [] => []
  | 0, l => l
  | fuel + 1, c :: rest =>
    if pat.isPrefixOf (c :: rest) then
      rep ++ replaceCharsAux pat rep fuel (List.drop pat.length (c :: rest))
    else
      c :: replaceCharsAux pat rep fuel rest

def replaceChars (pat rep l : PyStr) : PyStr := replaceCharsAux pat rep l.length l

/-- The third replace pattern of the source line
`coord.replace("'", "'").replace("″", '"').replace("""", '"').replace(""", '"')`:
Python tokenizes the tail of that line as one triple-quoted string, so the
third call replaces the 16-character junk pattern below by `"`. -/
def junkPat : PyStr :=
  [quoteChar, ',', ' ', apos, quoteChar, apos, ')', '.',
   'r', 'e', 'p', 'l', 'a', 'c', 'e', '(']

/-- The replace chain applied by `dms_to_decimal` before matching:
apostrophe → apostrophe (identity), `″` → `"`, junk pattern → `"`. -/
def pyReplaceChain (l : PyStr) : PyStr :=
  replaceChars junkPat [quoteChar]
    (replaceChars ['″'] [quoteChar]
      (replaceChars [apos] [apos] l))

/-- Greedy parse of the optional regex fragment `(?:\.\d+)?`: returns the
fraction digits (if the fragment matches) and the remaining input. -/
def parseFrac : PyStr → Option PyStr × PyStr
  | [] => (none, [])
  | c :: rest =>
    if c = '.' then
      let ds := rest.takeWhile isDigitC
      if ds = [] then (none, c :: rest) else (some ds, rest.dropWhile isDigitC)
    else (none, c :: rest)

/-- Captured groups of the DMS regex
`(\d+)[°\s]+(\d+(?:\.\d+)?)[\'′]?\s*(\d*(?:\.\d+)?)[\"″]?`:
group 1 split off as `deg`, group 2 as `minInt`/`minFrac`, group 3 as
`secInt`/`secFrac` (group 3 is the empty capture iff both parts are empty). -/
structure DmsGroups where
  deg : PyStr
  minInt : PyStr
  minFrac : Option PyStr
  secInt : PyStr
  secFrac : Option PyStr
deriving DecidableEq

/-- The `re.match` of the DMS pattern: anchored at the start, not required to
consume the whole input.  Every quantifier of the pattern is matched greedily;
for this pattern greedy matching never needs backtracking, because whenever
groups 1 and 2 and the separator class succeed the remainder of the pattern
can match the empty string. -/
def dmsMatch (s : PyStr) : Option DmsGroups :=
  let g1 := s.takeWhile isDigitC
  let r1 := s.dropWhile isDigitC
  if g1 = [] then none
  else if r1.takeWhile isDegSpace = [] then none
  else
    let r2 := r1.dropWhile isDegSpace
    let i2 := r2.takeWhile isDigitC
    let r3 := r2.dropWhile isDigitC
    if i2 = [] then none
    else
      let f2 := parseFrac r3
      let r4 := f2.2
      let r5 := match r4 with
        | c :: t => if c = apos || c = '′' then t else r4
        | [] => r4
      let r6 := r5.dropWhile isPySpace
      let i3 := r6.takeWhile isDigitC
      let f3 := parseFrac (r6.dropWhile isDigitC)
      some ⟨g1, i2, f2.1, i3, f3.1⟩

/-- Value of an optional fraction-digit capture. -/
def fracVal : Option PyStr → ℚ
  | none => 0
  | some ds => (natOfDigits ds : ℚ) / (10 : ℚ) ^ ds.length

/-- Value as `float` of a captured decimal group (integer digits plus optional fraction). -/
def groupVal (ip : PyStr) (fp : Option PyStr) : ℚ := (natOfDigits ip : ℚ) + fracVal fp

/-- Seconds: `float(match.group(3)) if match.group(3) else 0.0`: seconds default to 0
when group 3 captured the empty string. -/
def dmsSeconds (g : DmsGroups) : ℚ :=
  if g.secInt = [] ∧ g.secFrac = none then 0 else groupVal g.secInt g.secFrac

/-- Syntactic parts of a Python float literal: sign, integer digits, fraction
digits (possibly empty), and optional signed exponent digits. -/
structure FloatLit where
  neg : Bool
  ip : PyStr
  fp : PyStr
  expNeg : Bool
  ep : Option PyStr
deriving DecidableEq

/-- Optional exponent part of a float literal; the whole input must be consumed. -/
def pyFloatExp (neg : Bool) (ip fp : PyStr) : PyStr → Option FloatLit
  | [] => some ⟨neg, ip, fp, false, none⟩
  | c :: t =>
    if c = 'e' || c = 'E' then
      let sgn : Bool × PyStr := match t with
        | d :: u => if d = '+' then (false, u) else if d = '-' then (true, u) else (false, t)
        | [] => (false, [])
      let ed := sgn.2.takeWhile isDigitC
      if ed = [] || sgn.2.dropWhile isDigitC ≠ [] then none
      else some ⟨neg, ip, fp, sgn.1, some ed⟩
    else none

/-- Python `float(s)` on an already-stripped string: optional sign, then
`digits [. digits]` or `. digits`, then an optional exponent. -/
def pyFloatParse (l : PyStr) : Option FloatLit :=
  let sgn : Bool × PyStr := match l with
    | c :: t => if c = '+' then (false, t) else if c = '-' then (true, t) else (false, l)
    | [] => (false, [])
  let ip := sgn.2.takeWhile isDigitC
  let l2 := sgn.2.dropWhile isDigitC
  match l2 with
  | c :: t =>
    if c = '.' then
      let fp := t.takeWhile isDigitC
      let l3 := t.dropWhile isDigitC
      if ip = [] ∧ fp = [] then none else pyFloatExp sgn.1 ip fp l3
    else if ip = [] then none else pyFloatExp sgn.1 ip [] l2
  | [] => if ip = [] then none else pyFloatExp sgn.1 ip [] l2

/-- Numeric value of a parsed float literal. -/
def floatLitVal (f : FloatLit) : ℚ :=
  let mant : ℚ := (natOfDigits f.ip : ℚ) + (natOfDigits f.fp : ℚ) / (10 : ℚ) ^ f.fp.length
  let signed := if f.neg then -mant else mant
  match f.ep with
  | none => signed
  | some ed =>
    signed * (10 : ℚ) ^ (if f.expNeg then -(natOfDigits ed : ℤ) else (natOfDigits ed : ℤ))

/-- Python `float(s)` (whitespace-tolerant), `none` = raises `ValueError`. -/
def pyFloat (l : PyStr) : Option ℚ := (pyFloatParse (pyStrip l)).map floatLitVal

/-- A raw coordinate cell: a finite number (`isinstance(coord, float/int)`),
the float NaN, a string, or a value of any other type. -/
inductive RawCoord where
  | num (q : ℚ)
  | nanNum
  | str (s : PyStr)
  | other
deriving DecidableEq

/-- The function `dms_to_decimal`: numbers are returned unchanged, non-strings map to NaN,
strings are normalized by the replace chain, matched against the DMS pattern
(on the stripped string) and valued as `deg + min/60 + sec/3600`; on match
failure `float(coord)` is attempted, with NaN on failure. -/
def dms_to_decimal : RawCoord → Option ℚ
  | .num q => some q
  | .nanNum => none
  | .other => none
  | .str s =>
    let s2 := pyReplaceChain s
    match dmsMatch (pyStrip s2) with
    | some g =>
      some ((natOfDigits g.deg : ℚ) + groupVal g.minInt g.minFrac / 60 + dmsSeconds g / 3600)
    | none => pyFloat s2

/-- One specimen row.  `convFails` abstractly models the condition under which
the body of `convert_coordinates` raises (its `except` branch). -/
structure Row where
  lat : RawCoord
  lat_dir : Option PyStr
  long : RawCoord
  long_dir : Option PyStr
  family : Option PyStr
  genus : Option PyStr
  species : Option PyStr
  year : Option ℚ
  convFails : Bool
deriving DecidableEq

def toUpperL (l : PyStr) : PyStr := l.map Char.toUpper

def toLowerL (l : PyStr) : PyStr := l.map Char.toLower

/-- Latitude direction: `str(row['lat_dir']).strip().upper()` when present,
default `N` when NaN, and defaulted to `N` when not `N`/`S`. -/
def latDirOf (r : Row) : PyStr :=
  let d := match r.lat_dir with
    | some s => toUpperL (pyStrip s)
    | none => ['N']
  if d = ['N'] || d = ['S'] then d else ['N']

/-- Longitude direction: default `W` when NaN, defaulted to `W` when not `E`/`W`. -/
def longDirOf (r : Row) : PyStr :=
  let d := match r.long_dir with
    | some s => toUpperL (pyStrip s)
    | none => ['W']
  if d = ['E'] || d = ['W'] then d else ['W']

/-- A shapely point `Point(long, lat)`; a `none` component is a NaN coordinate. -/
structure Pt where
  x : Option ℚ
  y : Option ℚ
deriving DecidableEq

def negOpt : Option ℚ → Option ℚ := Option.map (fun q => -q)

/-- The function `convert_coordinates`: parse both coordinates, negate for `S`/`W`
hemisphere, and return `Point(0, 0)` when the body raises. -/
def convert_coordinates (r : Row) : Pt :=
  if r.convFails then ⟨some 0, some 0⟩
  else
    let lat := dms_to_decimal r.lat
    let long := dms_to_decimal r.long
    let lat2 := if latDirOf r = ['S'] then negOpt lat else lat
    let long2 := if longDirOf r = ['W'] then negOpt long else long
    ⟨long2, lat2⟩

/-- A polygon, modelled extensionally by its `within` predicate. -/
abbrev Region := ℚ → ℚ → Bool

/-- shapely `point.within(polygon)`; false when a coordinate is NaN. -/
def pointWithin (p : Pt) (g : Region) : Bool :=
  match p.x, p.y with
  | some x, some y => g x y
  | _, _ => false

/-- The family/genus/species selection of `generate_map` (already stripped by
the UI); the wildcard sentinels are the literal strings `All`/`All`/`all`. -/
structure TaxonQuery where
  family : PyStr
  genus : PyStr
  species : PyStr

/-- pandas `col.notna() & (col.str.strip() != "")`. -/
def nonEmptyTrim : Option PyStr → Bool
  | none => false
  | some s => !(pyStrip s).isEmpty

/-- pandas `col.str.lower() == q.lower()`; false on a NaN cell. -/
def lowerEq : Option PyStr → PyStr → Bool
  | none, _ => false
  | some s, q => toLowerL s == toLowerL q

def famTest (q : TaxonQuery) (r : Row) : Bool :=
  if q.family = ['A', 'l', 'l'] then nonEmptyTrim r.family else lowerEq r.family q.family

def genTest (q : TaxonQuery) (r : Row) : Bool :=
  if q.genus = ['A', 'l', 'l'] then nonEmptyTrim r.genus else lowerEq r.genus q.genus

def specTest (q : TaxonQuery) (r : Row) : Bool :=
  if q.species = ['a', 'l', 'l'] then nonEmptyTrim r.species else lowerEq r.species q.species

/-- The three sequential taxon filters of `generate_map`. -/
def filterTaxon (q : TaxonQuery) (rows : List Row) : List Row :=
  ((rows.filter (famTest q)).filter (genTest q)).filter (specTest q)

/-- One user color range: `(min_val, max_val, color)`, `max_val = none`
models `float('inf')` (the `∞` entry). -/
structure ColorRange where
  min_val : ℚ
  max_val : Option ℚ
  color : String

/-- Sorting `ranges.sort(key=lambda x: x[0])`: stable sort by `min_val`. -/
def sortRanges (rs : List ColorRange) : List ColorRange :=
  rs.insertionSort (fun a b => a.min_val ≤ b.min_val)

/-- The mask `(point_count >= min_val) & (point_count <= max_val)`. -/
def inRange (r : ColorRange) (n : ℕ) : Bool :=
  decide (r.min_val ≤ (n : ℚ)) &&
    (match r.max_val with
     | none => true
     | some m => decide ((n : ℚ) ≤ m))

/-- The counting loop of `process_county_data`: one count per county. -/
def countyCounts (counties : List Region) (pts : List Pt) : List ℕ :=
  counties.map (fun c => (pts.filter (fun p => pointWithin p c)).length)

/-- The color-assignment loop: start from the default `white`, then for each
range in sorted order overwrite the color of every county whose count lies in
the range (vectorized mask assignment). -/
def assignColors (sorted : List ColorRange) (counts : List ℕ) : List String :=
  sorted.foldl
    (fun colors r => (counts.zip colors).map (fun nc => if inRange r nc.1 then r.color else nc.2))
    (counts.map (fun _ => "white"))

/-- The function `process_county_data`: per-county point counts paired with their colors. -/
def process_county_data (counties : List Region) (ranges : List ColorRange)
    (pts : List Pt) : List (ℕ × String) :=
  let counts := countyCounts counties pts
  counts.zip (assignColors (sortRanges ranges) counts)

/-- The three user-facing outcomes of `generate_map` past input validation:
the two distinct empty-result toasts, or the two processed county datasets. -/
inductive GenOutcome where
  | noData
  | noPointsInBoundary
  | maps (mapA mapB : List (ℕ × String))
deriving DecidableEq

/-- pandas `points['year'] <= selected_year`; false on a NaN year. -/
def yearLe : Option ℚ → ℤ → Bool
  | none, _ => false
  | some y, c => decide (y ≤ (c : ℚ))

/-- The core of `generate_map`: taxon filter, coordinate conversion, clip to
the dissolved boundary, split by year, process both maps. -/
def generate_map (counties : List Region) (boundary : Region)
    (ranges : List ColorRange) (rows : List Row) (q : TaxonQuery)
    (selected_year : ℤ) : GenOutcome :=
  let filtered := filterTaxon q rows
  if filtered.length = 0 then .noData
  else
    let pts := filtered.map (fun r => (r, convert_coordinates r))
    let inside := pts.filter (fun rp => pointWithin rp.2 boundary)
    if inside.length = 0 then .noPointsInBoundary
    else
      let mapAdata := inside.filter (fun rp => yearLe rp.1.year selected_year)
      .maps (process_county_data counties ranges (mapAdata.map (fun rp => rp.2)))
            (process_county_data counties ranges (inside.map (fun rp => rp.2)))

/-! ### Helper lemmas about the classification and aggregation loops -/

theorem zip_self_map {α β : Type} (g : α → β) :
    ∀ l : List α, l.zip (l.map g) = l.map (fun a => (a, g a)) := by
  intro l
  induction l with
  | nil => rfl
  | cons a t ih => simp [List.zip_cons_cons, ih]

/-- Per-county reading of the color-assignment loop: folding the sorted ranges
over one count, starting from the default color `white`. -/
def classifySorted (sorted : List ColorRange) (n : ℕ) : String :=
  sorted.foldl (fun c r => if inRange r n then r.color else c) "white"

/-- Modelled from the spec: the color of the last range, in sorted order,
whose inclusive interval contains the count; `white` when no range matches. -/
def specLastMatchColor (sorted : List ColorRange) (n : ℕ) : String :=
  match sorted.reverse.find? (fun r => inRange r n) with
  | some r => r.color
  | none => "white"

theorem assignColors_foldl_mask (sorted : List ColorRange) (counts : List ℕ) :
    ∀ g : ℕ → String,
      sorted.foldl
        (fun colors r => (counts.zip colors).map (fun nc => if inRange r nc.1 then r.color else nc.2))
        (counts.map g)
      = counts.map (fun n => sorted.foldl (fun c r => if inRange r n then r.color else c) (g n)) := by
  induction sorted with
  | nil => intro g; simp
  | cons r rs ih =>
    intro g
    simp only [List.foldl_cons]
    rw [zip_self_map g counts]
    rw [List.map_map]
    have hcomp :
        ((fun nc : ℕ × String => if inRange r nc.1 then r.color else nc.2) ∘ fun a => (a, g a))
          = fun n => if inRange r n then r.color else g n := rfl
    rw [hcomp, ih]

theorem foldl_lastwins (n : ℕ) :
    ∀ (l : List ColorRange) (c0 : String),
      l.foldl (fun c r => if inRange r n then r.color else c) c0
        = match l.reverse.find? (fun r => inRange r n) with
          | some r => r.color
          | none => c0 := by
  intro l
  induction l with
  | nil => intro c0; rfl
  | cons r rs ih =>
    intro c0
    simp only [List.foldl_cons, List.reverse_cons]
    rw [ih, List.find?_append]
    cases hfind : rs.reverse.find? (fun r => inRange r n) with
    | some r0 => simp [Option.or]
    | none =>
      simp only [Option.or]
      cases hr : inRange r n <;> simp [List.find?, hr]

theorem classifySorted_eq_lastMatch (sorted : List ColorRange) (n : ℕ) :
    classifySorted sorted n = specLastMatchColor sorted n := by
  unfold classifySorted specLastMatchColor
  exact foldl_lastwins n sorted "white"

theorem processCountyData_eq (counties : List Region) (ranges : List ColorRange) (pts : List Pt) :
    process_county_data counties ranges pts
      = (countyCounts counties pts).map
          (fun n => (n, classifySorted (sortRanges ranges) n)) := by
  unfold process_county_data assignColors
  dsimp only
  rw [assignColors_foldl_mask (sortRanges ranges) (countyCounts counties pts) (fun _ => "white")]
  rw [zip_self_map]
  rfl

theorem filterLength_cons (f : Pt → Bool) (p : Pt) (t : List Pt) :
    ((p :: t).filter f).length = (t.filter f).length + (if f p then 1 else 0) := by
  rw [List.filter_cons]
  cases h : f p <;> simp

theorem mapSum_add {α : Type} (l : List α) (f g : α → ℕ) :
    (l.map (fun a => f a + g a)).sum = (l.map f).sum + (l.map g).sum := by
  induction l with
  | nil => rfl
  | cons a t ih => simp [ih]; omega

/-- Non-overlap of the county polygons: no point is `within` two of them. -/
def regionsDisjoint (counties : List Region) : Prop :=
  counties.Pairwise (fun c d => ∀ p : Pt, ¬(pointWithin p c = true ∧ pointWithin p d = true))

theorem sum_ite_le_one (p : Pt) :
    ∀ counties : List Region, regionsDisjoint counties →
      (counties.map (fun c => if pointWithin p c then 1 else 0)).sum ≤ 1 := by
  intro counties
  induction counties with
  | nil => intro _; simp
  | cons c cs ih =>
    intro hd
    rcases List.pairwise_cons.mp hd with ⟨hc, hcs⟩
    simp only [List.map_cons, List.sum_cons]
    cases hw : pointWithin p c with
    | false =>
      simpa using ih hcs
    | true =>
      have hz : (cs.map (fun d => if pointWithin p d then 1 else 0)).sum = 0 := by
        apply List.sum_eq_zero
        intro x hx
        rcases List.mem_map.mp hx with ⟨d, hdmem, hdx⟩
        have hdw : pointWithin p d = false := by
          cases hpd : pointWithin p d with
          | false => rfl
          | true => exact absurd ⟨hw, hpd⟩ (hc d hdmem p)
        rw [← hdx, hdw]
        rfl
      simp [hz]

theorem countyCounts_sum_le (counties : List Region) :
    ∀ pts : List Pt, regionsDisjoint counties →
      (countyCounts counties pts).sum ≤ pts.length := by
  intro pts hd
  induction pts with
  | nil =>
    have hz : (countyCounts counties []).sum = 0 := by
      apply List.sum_eq_zero
      intro x hx
      rcases List.mem_map.mp hx with ⟨c, _, hcx⟩
      simpa [List.filter_nil] using hcx.symm
    simp [hz]
  | cons p t ih =>
    have hstep : countyCounts counties (p :: t)
        = counties.map (fun c =>
            (t.filter (fun q => pointWithin q c)).length + (if pointWithin p c then 1 else 0)) := by
      unfold countyCounts
      apply List.map_congr_left
      intro c _
      exact filterLength_cons (fun q => pointWithin q c) p t
    rw [hstep, mapSum_add]
    have h1 := sum_ite_le_one p counties hd
    have h2 : (counties.map (fun c => (t.filter (fun q => pointWithin q c)).length)).sum ≤ t.length := ih
    simp only [List.length_cons]
    omega

/-- C2: the color-assignment loop of `process_county_data` realizes
last-match-wins over the ranges sorted stably by `min_count`: every county
receives the color of the last sorted range whose inclusive interval
(`max_count = ∞` matching every count above its `min_count`) contains its
count, and the neutral default `white` when no range contains it; in
particular with ranges `[(0,10,"A"), (5,15,"B")]` a count of 7 gets `"B"`. -/
theorem classifier_last_match_wins :
    (∀ (counties : List Region) (ranges : List ColorRange) (pts : List Pt),
      process_county_data counties ranges pts
        = (countyCounts counties pts).map
            (fun n => (n, specLastMatchColor (sortRanges ranges) n))) ∧
    process_county_data [fun _ _ => true]
        [⟨0, some 10, "A"⟩, ⟨5, some 15, "B"⟩]
        (List.replicate 7 ⟨some 0, some 0⟩) = [(7, "B")] := by
  constructor
  · intro counties ranges pts
    rw [processCountyData_eq]
    simp only [classifySorted_eq_lastMatch]
  · decide

/-- C3: the counting loop of `process_county_data` produces one count per
region (zero counts when the point set is empty), and when the regions are
pairwise non-overlapping the counts sum to at most the number of points. -/
theorem aggregation_total_and_no_double_count :
    ∀ (counties : List Region) (ranges : List ColorRange) (pts : List Pt),
      (countyCounts counties pts).length = counties.length ∧
      countyCounts counties [] = counties.map (fun _ => 0) ∧
      (process_county_data counties ranges pts).map Prod.fst = countyCounts counties pts ∧
      (regionsDisjoint counties → (countyCounts counties pts).sum ≤ pts.length) := by
  intro counties ranges pts
  refine ⟨by simp [countyCounts], ?_, ?_, fun hd => countyCounts_sum_le counties pts hd⟩
  · unfold countyCounts
    apply List.map_congr_left
    intro c _
    simp
  · rw [processCountyData_eq, List.map_map]
    exact List.map_id _

/-- Witness for C3 at two disjoint half-plane regions and three points, one of
which lies in neither region. -/
theorem aggregation_witness :
    (countyCounts [fun x _ => decide (x ≤ 0), fun x _ => decide (1 ≤ x)]
        [⟨some (-1), some 0⟩, ⟨some 2, some 0⟩, ⟨some (1/2), some 0⟩]).sum
      ≤ ([⟨some (-1), some 0⟩, ⟨some 2, some 0⟩, (⟨some (1/2), some 0⟩ : Pt)]).length := by
  have hd : regionsDisjoint [fun x _ => decide (x ≤ 0), fun x _ => decide (1 ≤ x)] := by
    constructor
    · intro d hd
      intro p hp
      rcases hp with ⟨h1, h2⟩
      rcases List.mem_singleton.mp hd with rfl
      rcases p with ⟨x, y⟩
      cases x with
      | none => simp [pointWithin] at h1
      | some xv =>
        cases y with
        | none => simp [pointWithin] at h1
        | some yv =>
          simp only [pointWithin, decide_eq_true_eq] at h1 h2
          linarith
    · constructor
      · intro d hd
        cases hd
      · constructor
  exact (aggregation_total_and_no_double_count
    [fun x _ => decide (x ≤ 0), fun x _ => decide (1 ≤ x)] []
    [⟨some (-1), some 0⟩, ⟨some 2, some 0⟩, ⟨some (1/2), some 0⟩]).2.2.2 hd

/-! ### Monotonicity of the two maps and the empty outcomes -/

theorem forall2_map_same {α β γ : Type} (R : β → γ → Prop) (f : α → β) (g : α → γ) :
    ∀ l : List α, (∀ x ∈ l, R (f x) (g x)) → List.Forall₂ R (l.map f) (l.map g) := by
  intro l
  induction l with
  | nil => intro _; exact List.Forall₂.nil
  | cons a t ih =>
    intro h
    exact List.Forall₂.cons (h a (List.mem_cons_self a t))
      (ih (fun x hx => h x (List.mem_cons_of_mem a hx)))

/-- C1: whenever `generate_map` produces the two maps, they carry one entry
per county, and for every county the full-data map's `point_count` (Map B) is
at least the cutoff-year map's count (Map A), for any cutoff year. -/
theorem full_map_counts_dominate_cutoff :
    ∀ (counties : List Region) (boundary : Region) (ranges : List ColorRange)
      (rows : List Row) (q : TaxonQuery) (selected_year : ℤ)
      (a b : List (ℕ × String)),
      generate_map counties boundary ranges rows q selected_year = .maps a b →
      a.length = counties.length ∧ b.length = counties.length ∧
      List.Forall₂ (fun xa xb => xa.1 ≤ xb.1) a b := by
  intro counties boundary ranges rows q y a b h
  simp only [generate_map] at h
  split at h
  · simp at h
  · split at h
    · simp at h
    · injection h with hA hB
      subst hA
      subst hB
      refine ⟨?_, ?_, ?_⟩
      · rw [processCountyData_eq]
        simp [countyCounts]
      · rw [processCountyData_eq]
        simp [countyCounts]
      · rw [processCountyData_eq, processCountyData_eq]
        unfold countyCounts
        rw [List.map_map, List.map_map]
        apply forall2_map_same
        intro c _
        refine List.Sublist.length_le ?_
        apply List.Sublist.filter
        apply List.Sublist.map
        exact List.filter_sublist _

def wQuery : TaxonQuery := ⟨['A', 'l', 'l'], ['A', 'l', 'l'], ['a', 'l', 'l']⟩

def wRow (yr : ℚ) : Row :=
  ⟨.num 5, some ['N'], .num 6, some ['E'], some ['f'], some ['g'], some ['s'], some yr, false⟩

/-- Witness for C1: one county covering everything, two rows of which only one
passes the year cutoff; Map A counts 1, Map B counts 2. -/
theorem full_map_dominates_witness :
    generate_map [fun _ _ => true] (fun _ _ => true) [] [wRow 1990, wRow 2010] wQuery 2000
        = .maps [(1, "white")] [(2, "white")] ∧
    List.Forall₂ (fun (xa xb : ℕ × String) => xa.1 ≤ xb.1) [(1, "white")] [(2, "white")] := by
  have hgen : generate_map [fun _ _ => true] (fun _ _ => true) [] [wRow 1990, wRow 2010] wQuery 2000
      = .maps [(1, "white")] [(2, "white")] := by decide
  exact ⟨hgen,
    (full_map_counts_dominate_cutoff [fun _ _ => true] (fun _ _ => true) [] [wRow 1990, wRow 2010]
      wQuery 2000 [(1, "white")] [(2, "white")] hgen).2.2⟩

/-- C9: the two empty-result conditions are reported as the two distinct
non-exceptional outcomes `noData` (no row matches the taxon query) and
`noPointsInBoundary` (no converted point survives the boundary clip), each
distinguishable from the other and from a successful `maps` outcome; no
aggregated map is produced in either empty case, and both counts nonzero
produce the `maps` outcome. -/
theorem empty_outcomes_distinct :
    (∀ (counties : List Region) (boundary : Region) (ranges : List ColorRange)
       (rows : List Row) (q : TaxonQuery) (y : ℤ),
       (filterTaxon q rows).length = 0 →
       generate_map counties boundary ranges rows q y = .noData) ∧
    (∀ (counties : List Region) (boundary : Region) (ranges : List ColorRange)
       (rows : List Row) (q : TaxonQuery) (y : ℤ),
       (filterTaxon q rows).length ≠ 0 →
       (((filterTaxon q rows).map (fun r => (r, convert_coordinates r))).filter
           (fun rp => pointWithin rp.2 boundary)).length = 0 →
       generate_map counties boundary ranges rows q y = .noPointsInBoundary) ∧
    GenOutcome.noData ≠ GenOutcome.noPointsInBoundary ∧
    (∀ a b, GenOutcome.noData ≠ GenOutcome.maps a b) ∧
    (∀ a b, GenOutcome.noPointsInBoundary ≠ GenOutcome.maps a b) ∧
    (∀ (counties : List Region) (boundary : Region) (ranges : List ColorRange)
       (rows : List Row) (q : TaxonQuery) (y : ℤ),
       (filterTaxon q rows).length ≠ 0 →
       (((filterTaxon q rows).map (fun r => (r, convert_coordinates r))).filter
           (fun rp => pointWithin rp.2 boundary)).length ≠ 0 →
       ∃ a b, generate_map counties boundary ranges rows q y = .maps a b) := by
  refine ⟨?_, ?_, ?_, ?_, ?_, ?_⟩
  · intro counties boundary ranges rows q y h
    simp only [generate_map]
    rw [if_pos h]
  · intro counties boundary ranges rows q y h1 h2
    simp only [generate_map]
    rw [if_neg h1, if_pos h2]
  · intro h
    cases h
  · intro a b h
    cases h
  · intro a b h
    cases h
  · intro counties boundary ranges rows q y h1 h2
    refine ⟨process_county_data counties ranges
        (((((filterTaxon q rows).map (fun r => (r, convert_coordinates r))).filter
            (fun rp => pointWithin rp.2 boundary)).filter
            (fun rp => yearLe rp.1.year y)).map (fun rp => rp.2)),
      process_county_data counties ranges
        ((((filterTaxon q rows).map (fun r => (r, convert_coordinates r))).filter
            (fun rp => pointWithin rp.2 boundary)).map (fun rp => rp.2)), ?_⟩
    simp only [generate_map]
    rw [if_neg h1, if_neg h2]

/-- Witness for C9: an empty record set yields `noData`; a taxon-matching row
whose point falls outside the boundary yields `noPointsInBoundary`. -/
theorem empty_outcomes_witness :
    generate_map [fun _ _ => true] (fun _ _ => true) [] [] wQuery 2000 = .noData ∧
    generate_map [fun _ _ => true] (fun _ _ => false) [] [wRow 1990] wQuery 2000
      = .noPointsInBoundary := by
  constructor
  · exact empty_outcomes_distinct.1 [fun _ _ => true] (fun _ _ => true) [] [] wQuery 2000 (by decide)
  · exact empty_outcomes_distinct.2.1 [fun _ _ => true] (fun _ _ => false) [] [wRow 1990] wQuery
      2000 (by decide) (by decide)

theorem filterTaxon_comm (q : TaxonQuery) (g : Row → Bool) (rows : List Row) :
    filterTaxon q (rows.filter g) = (filterTaxon q rows).filter g := by
  unfold filterTaxon
  simp only [List.filter_filter]
  apply List.filter_congr
  intro r _
  cases famTest q r <;> cases genTest q r <;> cases specTest q r <;> cases g r <;> rfl

theorem clip_ignores_failed (boundary : Region) (hb : boundary 0 0 = false) :
    ∀ l : List Row,
      ((l.filter (fun r => !r.convFails)).map (fun r => (r, convert_coordinates r))).filter
          (fun rp => pointWithin rp.2 boundary)
        = (l.map (fun r => (r, convert_coordinates r))).filter
            (fun rp => pointWithin rp.2 boundary) := by
  intro l
  induction l with
  | nil => rfl
  | cons r t ih =>
    cases hf : r.convFails with
    | false =>
      simp only [List.filter_cons, List.map_cons, hf, Bool.not_false, if_pos]
      rw [ih]
    | true =>
      have hc : convert_coordinates r = ⟨some 0, some 0⟩ := by
        unfold convert_coordinates
        rw [if_pos hf]
      have hw : pointWithin (convert_coordinates r) boundary = false := by
        rw [hc]
        simp [pointWithin, hb]
      simp only [List.filter_cons, List.map_cons, hf, Bool.not_true, hw]
      rw [if_neg (by decide : ¬((false : Bool) = true))]
      exact ih

/-- C10: rows whose coordinate conversion raises are mapped to the fallback
point `(0, 0)`; when the dissolved boundary excludes `(0, 0)`, such a point
fails the `within` clip, and the clipped point set — from which both maps'
county counts are computed — is unchanged if the failing rows are removed, so
a failing row contributes to no county's `point_count` in either map. -/
theorem failed_conversion_rows_clipped :
    ∀ boundary : Region, boundary 0 0 = false →
      (∀ r : Row, r.convFails = true →
        convert_coordinates r = ⟨some 0, some 0⟩ ∧
        pointWithin (convert_coordinates r) boundary = false) ∧
      (∀ (q : TaxonQuery) (rows : List Row),
        ((filterTaxon q rows).map (fun r => (r, convert_coordinates r))).filter
            (fun rp => pointWithin rp.2 boundary)
          = ((filterTaxon q (rows.filter (fun r => !r.convFails))).map
              (fun r => (r, convert_coordinates r))).filter
              (fun rp => pointWithin rp.2 boundary)) := by
  intro boundary hb
  constructor
  · intro r hf
    have hc : convert_coordinates r = ⟨some 0, some 0⟩ := by
      unfold convert_coordinates
      rw [if_pos hf]
    refine ⟨hc, ?_⟩
    rw [hc]
    simp [pointWithin, hb]
  · intro q rows
    rw [filterTaxon_comm q (fun r => !r.convFails) rows]
    exact (clip_ignores_failed boundary hb (filterTaxon q rows)).symm

/-- Witness for C10 at a boundary excluding the origin and one failing row. -/
theorem failed_conversion_witness :
    pointWithin (convert_coordinates ⟨.num 5, some ['N'], .num 6, some ['E'], some ['f'],
        some ['g'], some ['s'], some 1990, true⟩) (fun x _ => decide (1 ≤ x)) = false := by
  have hb : (fun (x : ℚ) (_ : ℚ) => decide (1 ≤ x)) 0 0 = false := by decide
  exact ((failed_conversion_rows_clipped (fun x _ => decide (1 ≤ x)) hb).1
    ⟨.num 5, some ['N'], .num 6, some ['E'], some ['f'], some ['g'], some ['s'],
      some 1990, true⟩ rfl).2

/-! ### Coordinate parsing claims -/

/-- The spec example input `44°41.576'`. -/
def exLatDMS : PyStr := ['4', '4', '°', '4', '1', '.', '5', '7', '6', Char.ofNat 39]

def rowDmsN : Row := ⟨.str exLatDMS, some ['N'], .num 111, some ['W'], none, none, none, none, false⟩

def rowDmsS : Row := ⟨.str exLatDMS, some ['S'], .num 111, some ['W'], none, none, none, none, false⟩

theorem dms_concrete_value : dms_to_decimal (.str exLatDMS) = some (335197/7500) := by
  have h2 : dmsMatch (pyStrip (pyReplaceChain exLatDMS))
      = some ⟨['4', '4'], ['4', '1'], some ['5', '7', '6'], [], none⟩ := by decide
  have hd : natOfDigits ['4', '4'] = 44 := by decide
  have hm : natOfDigits ['4', '1'] = 41 := by decide
  have hf : natOfDigits ['5', '7', '6'] = 576 := by decide
  simp only [dms_to_decimal, h2, groupVal, fracVal, dmsSeconds, hd, hm, hf]
  norm_num

/-- C4: a string whose normalized, stripped form matches the DMS pattern is
valued as `degrees + minutes/60 + seconds/3600`, seconds defaulting to 0 when
group 3 is absent; in particular `44°41.576'` yields `335197/7500 ≈ 44.6929`
with direction `N`, and its negation with direction `S`. -/
theorem dms_formula_and_example :
    (∀ (s : PyStr) (g : DmsGroups),
      dmsMatch (pyStrip (pyReplaceChain s)) = some g →
      dms_to_decimal (.str s)
        = some ((natOfDigits g.deg : ℚ) + groupVal g.minInt g.minFrac / 60
            + dmsSeconds g / 3600)) ∧
    (∀ g : DmsGroups, g.secInt = [] → g.secFrac = none → dmsSeconds g = 0) ∧
    (convert_coordinates rowDmsN).y = some (335197/7500) ∧
    (convert_coordinates rowDmsS).y = some (-(335197/7500)) := by
  refine ⟨?_, ?_, ?_, ?_⟩
  · intro s g h
    simp only [dms_to_decimal, h]
  · intro g h1 h2
    unfold dmsSeconds
    rw [if_pos ⟨h1, h2⟩]
  · have hn : latDirOf rowDmsN = ['N'] := by decide
    unfold convert_coordinates
    rw [if_neg (by decide : ¬(rowDmsN.convFails = true))]
    dsimp only
    rw [hn]
    rw [if_neg (by decide : ¬((['N'] : PyStr) = ['S']))]
    exact dms_concrete_value
  · have hs : latDirOf rowDmsS = ['S'] := by decide
    unfold convert_coordinates
    rw [if_neg (by decide : ¬(rowDmsS.convFails = true))]
    dsimp only
    rw [hs]
    rw [if_pos rfl]
    show negOpt (dms_to_decimal (.str exLatDMS)) = _
    rw [dms_concrete_value]
    rfl

/-- Witness for C4 at the spec's example string. -/
theorem dms_formula_witness :
    dms_to_decimal (.str exLatDMS)
      = some ((natOfDigits ['4', '4'] : ℚ)
          + groupVal ['4', '1'] (some ['5', '7', '6']) / 60
          + dmsSeconds ⟨['4', '4'], ['4', '1'], some ['5', '7', '6'], [], none⟩ / 3600) :=
  dms_formula_and_example.1 exLatDMS
    ⟨['4', '4'], ['4', '1'], some ['5', '7', '6'], [], none⟩ (by decide)

/-- C7: `dms_to_decimal` is total — in this embedding every branch returns a
value, the fallible `float(...)` call being absorbed into an `Option`, so no
input raises; a string on which both the DMS match and the numeric parse fail
maps to the NaN sentinel, as do inputs that are neither strings nor numbers
(including the float NaN). -/
theorem dms_never_raises :
    (∀ s : PyStr,
      dmsMatch (pyStrip (pyReplaceChain s)) = none →
      pyFloat (pyReplaceChain s) = none →
      dms_to_decimal (.str s) = none) ∧
    dms_to_decimal .nanNum = none ∧
    dms_to_decimal .other = none ∧
    (∀ c : RawCoord, dms_to_decimal c = none ∨ ∃ q, dms_to_decimal c = some q) := by
  refine ⟨?_, rfl, rfl, ?_⟩
  · intro s h1 h2
    simp only [dms_to_decimal, h1]
    exact h2
  · intro c
    cases hr : dms_to_decimal c with
    | none => exact Or.inl rfl
    | some q => exact Or.inr ⟨q, rfl⟩

/-- Witness for C7 at an unparseable string. -/
theorem dms_never_raises_witness :
    dms_to_decimal (.str ['a', 'b', 'c']) = none :=
  dms_never_raises.1 ['a', 'b', 'c'] (by decide) (by decide)

/-! ### Taxon filtering -/

/-- C8: the three taxon tests act independently (wildcard sentinel keeps rows
with a non-empty trimmed field, a literal keeps rows equal case-insensitively)
and are conjoined; with wildcard family and genus and a literal species the
filter keeps exactly the rows whose species matches case-insensitively and
whose family and genus are non-empty after trimming. -/
theorem taxon_filter_conjunction :
    (∀ (q : TaxonQuery) (rows : List Row),
      filterTaxon q rows
        = rows.filter (fun r => famTest q r && genTest q r && specTest q r)) ∧
    (∀ (spec : PyStr) (rows : List Row), spec ≠ ['a', 'l', 'l'] →
      filterTaxon ⟨['A', 'l', 'l'], ['A', 'l', 'l'], spec⟩ rows
        = rows.filter (fun r =>
            nonEmptyTrim r.family && nonEmptyTrim r.genus && lowerEq r.species spec)) := by
  have hgen : ∀ (q : TaxonQuery) (rows : List Row),
      filterTaxon q rows
        = rows.filter (fun r => famTest q r && genTest q r && specTest q r) := by
    intro q rows
    unfold filterTaxon
    simp only [List.filter_filter]
    apply List.filter_congr
    intro r _
    cases famTest q r <;> cases genTest q r <;> cases specTest q r <;> rfl
  refine ⟨hgen, ?_⟩
  intro spec rows hs
  rw [hgen]
  apply List.filter_congr
  intro r _
  have h1 : famTest ⟨['A', 'l', 'l'], ['A', 'l', 'l'], spec⟩ r = nonEmptyTrim r.family := by
    unfold famTest
    dsimp only
    rw [if_pos rfl]
  have h2 : genTest ⟨['A', 'l', 'l'], ['A', 'l', 'l'], spec⟩ r = nonEmptyTrim r.genus := by
    unfold genTest
    dsimp only
    rw [if_pos rfl]
  have h3 : specTest ⟨['A', 'l', 'l'], ['A', 'l', 'l'], spec⟩ r = lowerEq r.species spec := by
    unfold specTest
    dsimp only
    rw [if_neg hs]
  rw [h1, h2, h3]

def bisonRow : Row :=
  ⟨.num 5, some ['N'], .num 6, some ['E'], some ['f'], some ['g'],
   some ['B', 'i', 's', 'o', 'n'], some 1990, false⟩

/-- Witness for C8: a literal species query `bison` keeps exactly the row with
species `Bison` (case-insensitive) out of two rows. -/
theorem taxon_filter_witness :
    filterTaxon ⟨['A', 'l', 'l'], ['A', 'l', 'l'], ['b', 'i', 's', 'o', 'n']⟩
        [bisonRow, wRow 1990]
      = [bisonRow] := by
  have h := taxon_filter_conjunction.2 ['b', 'i', 's', 'o', 'n'] [bisonRow, wRow 1990] (by decide)
  rw [h]
  decide

/-! ### Hemisphere sign handling -/

def rowNegLat : Row :=
  ⟨.num (-(89/2)), some ['S'], .num 111, some ['W'], none, none, none, none, false⟩

/-- C6 counterexample: for a row whose raw latitude is the already-negative
number `-44.5` with direction `S`, the code returns `+44.5` — the negation of
the signed parsed value — not `-|{-44.5}| = -44.5` as the claim states, and
the returned latitude is not non-positive. -/
theorem hemisphere_negation_counterexample :
    latDirOf rowNegLat = ['S'] ∧
    dms_to_decimal rowNegLat.lat = some (-(89/2)) ∧
    (convert_coordinates rowNegLat).y = some (89/2) ∧
    -|(-(89/2) : ℚ)| = -(89/2) ∧
    ¬((89 : ℚ)/2 = -(89/2)) ∧
    ¬((89 : ℚ)/2 ≤ 0) := by
  refine ⟨by decide, rfl, ?_, ?_, by norm_num, by norm_num⟩
  · unfold convert_coordinates
    rw [if_neg (by decide : ¬(rowNegLat.convFails = true))]
    dsimp only
    rw [(by decide : latDirOf rowNegLat = ['S'])]
    rw [if_pos rfl]
    show negOpt (dms_to_decimal rowNegLat.lat) = some (89/2)
    show negOpt (some (-(89/2))) = some (89/2)
    simp [negOpt]
  · rw [abs_of_nonpos (by norm_num : (-(89/2) : ℚ) ≤ 0)]
    norm_num

/-- C6 (amended): when the (possibly defaulted) direction is the negative
hemisphere for its axis, `convert_coordinates` returns the negation of the
signed parsed value (not of its absolute value); the result is therefore
non-positive whenever the parsed value is non-negative — in particular for
every DMS-parsed magnitude. -/
theorem hemisphere_negation_amended :
    ∀ r : Row, r.convFails = false →
      ((latDirOf r = ['S'] → (convert_coordinates r).y = negOpt (dms_to_decimal r.lat)) ∧
       (longDirOf r = ['W'] → (convert_coordinates r).x = negOpt (dms_to_decimal r.long)) ∧
       (∀ q : ℚ, latDirOf r = ['S'] → dms_to_decimal r.lat = some q → 0 ≤ q →
          (convert_coordinates r).y = some (-q) ∧ -q ≤ 0) ∧
       (∀ q : ℚ, longDirOf r = ['W'] → dms_to_decimal r.long = some q → 0 ≤ q →
          (convert_coordinates r).x = some (-q) ∧ -q ≤ 0)) := by
  intro r hf
  have hnf : ¬(r.convFails = true) := by
    rw [hf]
    decide
  have hy : latDirOf r = ['S'] → (convert_coordinates r).y = negOpt (dms_to_decimal r.lat) := by
    intro hd
    unfold convert_coordinates
    rw [if_neg hnf]
    dsimp only
    rw [hd, if_pos rfl]
  have hx : longDirOf r = ['W'] → (convert_coordinates r).x = negOpt (dms_to_decimal r.long) := by
    intro hd
    unfold convert_coordinates
    rw [if_neg hnf]
    dsimp only
    rw [hd, if_pos rfl]
  refine ⟨hy, hx, ?_, ?_⟩
  · intro q hd hv hq
    constructor
    · rw [hy hd, hv]
      rfl
    · exact neg_nonpos.mpr hq
  · intro q hd hv hq
    constructor
    · rw [hx hd, hv]
      rfl
    · exact neg_nonpos.mpr hq

/-- Witness for the amended C6 at the DMS example row with direction `S`. -/
theorem hemisphere_negation_witness :
    (convert_coordinates rowDmsS).y = some (-(335197/7500)) ∧ (-(335197/7500) : ℚ) ≤ 0 :=
  (hemisphere_negation_amended rowDmsS rfl).2.2.1 (335197/7500) (by decide)
    dms_concrete_value (by norm_num)

/-! ### Decimal strings round-trip through the normalizer (C5) -/

theorem digit_ne {c : Char} (d : Char) (hc : isDigitC c = true) (hd : isDigitC d = false) :
    c ≠ d := by
  intro h
  rw [h, hd] at hc
  cases hc

theorem digit_not_space {c : Char} (hc : isDigitC c = true) : isPySpace c = false := by
  cases hs : isPySpace c with
  | false => rfl
  | true =>
    exfalso
    simp only [isPySpace, Bool.or_eq_true, decide_eq_true_eq] at hs
    rcases hs with ((((h | h) | h) | h) | h) | h <;> subst h <;> exact absurd hc (by decide)

theorem digit_not_degspace {c : Char} (hc : isDigitC c = true) : isDegSpace c = false := by
  unfold isDegSpace
  rw [digit_not_space hc, decide_eq_false (digit_ne '°' hc (by decide))]
  rfl

theorem takeWhile_cons_false {p : Char → Bool} (c : Char) (l : PyStr) (h : p c = false) :
    (c :: l).takeWhile p = [] := by
  simp only [List.takeWhile]
  rw [h]

theorem dropWhile_cons_false {p : Char → Bool} (c : Char) (l : PyStr) (h : p c = false) :
    (c :: l).dropWhile p = c :: l := by
  simp only [List.dropWhile]
  rw [h]

theorem takeWhile_cons_true {p : Char → Bool} (c : Char) (l : PyStr) (h : p c = true) :
    (c :: l).takeWhile p = c :: l.takeWhile p := by
  simp only [List.takeWhile]
  rw [h]

theorem dropWhile_cons_true {p : Char → Bool} (c : Char) (l : PyStr) (h : p c = true) :
    (c :: l).dropWhile p = l.dropWhile p := by
  simp only [List.dropWhile]
  rw [h]

theorem takeWhile_append_all {p : Char → Bool} :
    ∀ l1 l2 : PyStr, (∀ c ∈ l1, p c = true) →
      (l1 ++ l2).takeWhile p = l1 ++ l2.takeWhile p := by
  intro l1
  induction l1 with
  | nil => intro l2 _; rfl
  | cons a t ih =>
    intro l2 h
    rw [List.cons_append, takeWhile_cons_true a _ (h a (List.mem_cons_self a t))]
    rw [ih l2 (fun c hc => h c (List.mem_cons_of_mem a hc))]
    rfl

theorem dropWhile_append_all {p : Char → Bool} :
    ∀ l1 l2 : PyStr, (∀ c ∈ l1, p c = true) →
      (l1 ++ l2).dropWhile p = l2.dropWhile p := by
  intro l1
  induction l1 with
  | nil => intro l2 _; rfl
  | cons a t ih =>
    intro l2 h
    rw [List.cons_append, dropWhile_cons_true a _ (h a (List.mem_cons_self a t))]
    exact ih l2 (fun c hc => h c (List.mem_cons_of_mem a hc))

theorem takeWhile_all {p : Char → Bool} (l : PyStr) (h : ∀ c ∈ l, p c = true) :
    l.takeWhile p = l := by
  have := takeWhile_append_all l [] h
  simpa using this

theorem dropWhile_all {p : Char → Bool} (l : PyStr) (h : ∀ c ∈ l, p c = true) :
    l.dropWhile p = [] := by
  have := dropWhile_append_all l [] h
  simpa using this

theorem dropWhile_eq_self_of_all {p : Char → Bool} (l : PyStr) (h : ∀ c ∈ l, p c = false) :
    l.dropWhile p = l := by
  cases l with
  | nil => rfl
  | cons a t => exact dropWhile_cons_false a t (h a (List.mem_cons_self a t))

theorem pyStrip_eq_self (l : PyStr) (h : ∀ c ∈ l, isPySpace c = false) : pyStrip l = l := by
  unfold pyStrip
  rw [dropWhile_eq_self_of_all l h]
  rw [dropWhile_eq_self_of_all l.reverse (fun c hc => h c (List.mem_reverse.mp hc))]
  exact List.reverse_reverse l

theorem replaceCharsAux_id (p0 : Char) (pt rep : PyStr) :
    ∀ (fuel : ℕ) (l : PyStr), (∀ c ∈ l, c ≠ p0) →
      replaceCharsAux (p0 :: pt) rep fuel l = l := by
  intro fuel
  induction fuel with
  | zero =>
    intro l _
    cases l <;> rfl
  | succ n ih =>
    intro l h
    cases l with
    | nil => rfl
    | cons c rest =>
      have hc : c ≠ p0 := h c (List.mem_cons_self c rest)
      have hpre : (p0 :: pt).isPrefixOf (c :: rest) = false := by
        simp only [List.isPrefixOf]
        rw [beq_eq_false_iff_ne.mpr (Ne.symm hc)]
        rfl
      unfold replaceCharsAux
      rw [hpre]
      rw [if_neg (by decide : ¬((false : Bool) = true))]
      exact congrArg (c :: ·) (ih rest (fun d hd => h d (List.mem_cons_of_mem c hd)))

theorem replaceChars_id (p0 : Char) (pt rep l : PyStr) (h : ∀ c ∈ l, c ≠ p0) :
    replaceChars (p0 :: pt) rep l = l :=
  replaceCharsAux_id p0 pt rep l.length l h

/-- Modelled from the spec: the shape of a valid decimal coordinate string —
optional minus sign, integer digits, optional dot and fraction digits. -/
def decLit (neg : Bool) (ds fs : PyStr) : PyStr :=
  (if neg then ['-'] else []) ++ ds ++ (if fs.isEmpty then [] else '.' :: fs)

/-- Modelled from the spec: the rational such a decimal string denotes. -/
def decLitVal (neg : Bool) (ds fs : PyStr) : ℚ :=
  (if neg then -1 else 1) * ((natOfDigits ds : ℚ) + (natOfDigits fs : ℚ) / (10 : ℚ) ^ fs.length)

theorem decLit_chars (neg : Bool) (ds fs : PyStr)
    (hds : ∀ c ∈ ds, isDigitC c = true) (hfs : ∀ c ∈ fs, isDigitC c = true) :
    ∀ c ∈ decLit neg ds fs, isDigitC c = true ∨ c = '-' ∨ c = '.' := by
  intro c hc
  unfold decLit at hc
  rcases List.mem_append.mp hc with h1 | h2
  · rcases List.mem_append.mp h1 with ha | hb
    · cases neg with
      | true =>
        right; left
        simpa using ha
      | false => simp at ha
    · exact Or.inl (hds c hb)
  · cases hemp : fs.isEmpty with
    | true =>
      rw [hemp] at h2
      simp at h2
    | false =>
      rw [hemp] at h2
      rcases List.mem_cons.mp h2 with h | h
      · exact Or.inr (Or.inr h)
      · exact Or.inl (hfs c h)

theorem decLit_ne (neg : Bool) (ds fs : PyStr)
    (hds : ∀ c ∈ ds, isDigitC c = true) (hfs : ∀ c ∈ fs, isDigitC c = true)
    (k : Char) (hk1 : isDigitC k = false) (hk2 : ('-' : Char) ≠ k) (hk3 : ('.' : Char) ≠ k) :
    ∀ c ∈ decLit neg ds fs, c ≠ k := by
  intro c hc
  rcases decLit_chars neg ds fs hds hfs c hc with h | h | h
  · exact digit_ne k h hk1
  · rw [h]; exact hk2
  · rw [h]; exact hk3

theorem decLit_nospace (neg : Bool) (ds fs : PyStr)
    (hds : ∀ c ∈ ds, isDigitC c = true) (hfs : ∀ c ∈ fs, isDigitC c = true) :
    ∀ c ∈ decLit neg ds fs, isPySpace c = false := by
  intro c hc
  rcases decLit_chars neg ds fs hds hfs c hc with h | h | h
  · exact digit_not_space h
  · rw [h]; decide
  · rw [h]; decide

theorem pyReplaceChain_decLit (neg : Bool) (ds fs : PyStr)
    (hds : ∀ c ∈ ds, isDigitC c = true) (hfs : ∀ c ∈ fs, isDigitC c = true) :
    pyReplaceChain (decLit neg ds fs) = decLit neg ds fs := by
  unfold pyReplaceChain
  rw [replaceChars_id apos [] [apos] _
    (decLit_ne neg ds fs hds hfs apos (by decide) (by decide) (by decide))]
  rw [replaceChars_id '″' [] [quoteChar] _
    (decLit_ne neg ds fs hds hfs '″' (by decide) (by decide) (by decide))]
  simp only [junkPat]
  rw [replaceChars_id quoteChar [',', ' ', apos, quoteChar, apos, ')', '.',
      'r', 'e', 'p', 'l', 'a', 'c', 'e', '('] [quoteChar] _
    (decLit_ne neg ds fs hds hfs quoteChar (by decide) (by decide) (by decide))]

theorem dmsMatch_decLit (neg : Bool) (ds fs : PyStr) (hne : ds ≠ [])
    (hds : ∀ c ∈ ds, isDigitC c = true) (hfs : ∀ c ∈ fs, isDigitC c = true) :
    dmsMatch (decLit neg ds fs) = none := by
  cases neg with
  | true =>
    have hshape : decLit true ds fs
        = '-' :: (ds ++ (if fs.isEmpty then [] else '.' :: fs)) := rfl
    rw [hshape]
    unfold dmsMatch
    dsimp only
    rw [takeWhile_cons_false '-' _ (by decide)]
    rw [if_pos rfl]
  | false =>
    cases fs with
    | nil =>
      have hshape : decLit false ds [] = ds := by
        unfold decLit
        simp
      rw [hshape]
      unfold dmsMatch
      dsimp only
      rw [takeWhile_all ds hds, dropWhile_all ds hds]
      rw [if_neg hne]
      rw [if_pos (show List.takeWhile isDegSpace ([] : PyStr) = [] from rfl)]
    | cons f0 ft =>
      have hshape : decLit false ds (f0 :: ft) = ds ++ ('.' :: f0 :: ft) := by
        unfold decLit
        simp
      rw [hshape]
      unfold dmsMatch
      dsimp only
      rw [takeWhile_append_all ds _ hds, takeWhile_cons_false '.' _ (by decide),
        List.append_nil]
      rw [dropWhile_append_all ds _ hds, dropWhile_cons_false '.' _ (by decide)]
      rw [if_neg hne]
      rw [takeWhile_cons_false '.' _ (by decide)]
      rw [if_pos rfl]

theorem pyFloatParse_decLit (neg : Bool) (ds fs : PyStr) (hne : ds ≠ [])
    (hds : ∀ c ∈ ds, isDigitC c = true) (hfs : ∀ c ∈ fs, isDigitC c = true) :
    pyFloatParse (decLit neg ds fs) = some ⟨neg, ds, fs, false, none⟩ := by
  obtain ⟨d0, ds1, rfl⟩ : ∃ d0 ds1, ds = d0 :: ds1 := by
    cases ds with
    | nil => exact absurd rfl hne
    | cons d0 ds1 => exact ⟨d0, ds1, rfl⟩
  have hd0 : isDigitC d0 = true := hds d0 (List.mem_cons_self d0 ds1)
  cases neg with
  | true =>
    cases fs with
    | nil =>
      have hshape : decLit true (d0 :: ds1) [] = '-' :: ((d0 :: ds1) ++ []) := rfl
      rw [hshape, List.append_nil]
      unfold pyFloatParse
      dsimp only
      rw [if_neg (by decide : ¬(('-' : Char) = '+')), if_pos rfl]
      dsimp only
      rw [takeWhile_all _ hds, dropWhile_all _ hds]
      dsimp only
      rw [if_neg hne]
      rfl
    | cons f0 ft =>
      have hshape : decLit true (d0 :: ds1) (f0 :: ft)
          = '-' :: ((d0 :: ds1) ++ ('.' :: f0 :: ft)) := rfl
      rw [hshape]
      unfold pyFloatParse
      dsimp only
      rw [if_neg (by decide : ¬(('-' : Char) = '+')), if_pos rfl]
      dsimp only
      rw [takeWhile_append_all _ _ hds, takeWhile_cons_false '.' _ (by decide),
        List.append_nil]
      rw [dropWhile_append_all _ _ hds, dropWhile_cons_false '.' _ (by decide)]
      dsimp only
      rw [if_pos rfl]
      rw [takeWhile_all _ hfs, dropWhile_all _ hfs]
      rw [if_neg (by
        intro hand
        exact hne hand.1)]
      rfl
  | false =>
    cases fs with
    | nil =>
      have hshape : decLit false (d0 :: ds1) [] = d0 :: (ds1 ++ []) := rfl
      rw [hshape, List.append_nil]
      unfold pyFloatParse
      dsimp only
      rw [if_neg (digit_ne '+' hd0 (by decide)), if_neg (digit_ne '-' hd0 (by decide))]
      dsimp only
      rw [show List.takeWhile isDigitC (d0 :: ds1) = d0 :: ds1 from takeWhile_all _ hds]
      rw [show List.dropWhile isDigitC (d0 :: ds1) = [] from dropWhile_all _ hds]
      rw [if_neg hne]
      rfl
    | cons f0 ft =>
      have hshape : decLit false (d0 :: ds1) (f0 :: ft)
          = d0 :: (ds1 ++ ('.' :: f0 :: ft)) := rfl
      rw [hshape]
      unfold pyFloatParse
      dsimp only
      rw [if_neg (digit_ne '+' hd0 (by decide)), if_neg (digit_ne '-' hd0 (by decide))]
      dsimp only
      rw [← List.cons_append]
      rw [takeWhile_append_all _ _ hds, takeWhile_cons_false '.' _ (by decide),
        List.append_nil]
      rw [dropWhile_append_all _ _ hds, dropWhile_cons_false '.' _ (by decide)]
      dsimp only
      rw [if_pos rfl]
      rw [takeWhile_all _ hfs, dropWhile_all _ hfs]
      rw [if_neg (by
        intro hand
        exact hne hand.1)]
      rfl

theorem floatLitVal_decLit (neg : Bool) (ds fs : PyStr) :
    floatLitVal ⟨neg, ds, fs, false, none⟩ = decLitVal neg ds fs := by
  unfold floatLitVal decLitVal
  dsimp only
  cases neg <;> simp

/-- C5: `dms_to_decimal` is the identity on already-numeric raw values, and on
every valid decimal coordinate string (optional minus sign, integer digits,
optional fraction digits) it returns exactly the rational the string denotes:
the DMS pattern never matches such a string, and the numeric fallback parses
it exactly. -/
theorem normalize_identity_on_numeric_and_decimal :
    (∀ q : ℚ, dms_to_decimal (.num q) = some q) ∧
    (∀ (neg : Bool) (ds fs : PyStr), ds ≠ [] →
      (∀ c ∈ ds, isDigitC c = true) → (∀ c ∈ fs, isDigitC c = true) →
      dms_to_decimal (.str (decLit neg ds fs)) = some (decLitVal neg ds fs)) := by
  refine ⟨fun q => rfl, ?_⟩
  intro neg ds fs hne hds hfs
  have hrep := pyReplaceChain_decLit neg ds fs hds hfs
  have hstrip := pyStrip_eq_self (decLit neg ds fs) (decLit_nospace neg ds fs hds hfs)
  have hdms := dmsMatch_decLit neg ds fs hne hds hfs
  have hpf := pyFloatParse_decLit neg ds fs hne hds hfs
  simp only [dms_to_decimal, hrep, hstrip, hdms]
  unfold pyFloat
  rw [hstrip, hpf]
  rw [show Option.map floatLitVal (some ⟨neg, ds, fs, false, none⟩)
      = some (floatLitVal ⟨neg, ds, fs, false, none⟩) from rfl]
  rw [floatLitVal_decLit]

/-- Witness for C5 at the decimal string `-44.5`. -/
theorem normalize_identity_witness :
    dms_to_decimal (.str (decLit true ['4', '4'] ['5']))
      = some (decLitVal true ['4', '4'] ['5']) :=
  normalize_identity_on_numeric_and_decimal.2 true ['4', '4'] ['5']
    (by decide) (by decide) (by decide)
